import Mathlib

/-!
Shallow embedding of the STM32F072RB SmartAgri firmware
(`src/stm32_src/smartagri.c`) and proofs about its observable behaviour.

Machine integers: the C `int` is 32-bit two's complement.  Arithmetic whose
result can leave `[-2^31, 2^31)` is modelled by explicit wrapping
(`wrap32`), matching the behaviour of the target's two's-complement
hardware; where the source stays in range we prove the wrap is the
identity.  UART output is modelled as the list of bytes (characters)
written to the USART2 transmit data register, in order.
-/

namespace SmartAgri

/-- Reduce an integer to the 32-bit two's-complement value range
`[-2^31, 2^31)`; this is what the target hardware produces when a C `int`
operation overflows. -/
def wrap32 (x : Int) : Int := (x + 2 ^ 31) % 2 ^ 32 - 2 ^ 31

/-- Embedding of the statement `num = -num;` in `uart_putnum`
(src/stm32_src/smartagri.c:67): machine negation of a 32-bit `int`,
which wraps for `INT_MIN`. -/
def cNeg (x : Int) : Int := wrap32 (-x)

/-- One step of the digit-extraction loop of `uart_putnum`
(src/stm32_src/smartagri.c:69-72): `while (num > 0) { buf[i++] = '0' + num % 10; num /= 10; }`.
`fuel` bounds the number of iterations so the recursion is structural;
`fuel = n` always suffices because `num` strictly decreases. -/
def pushDigitsF : Nat → Nat → List Char
  | 0, _ => []
  | fuel + 1, n =>
    if n = 0 then [] else Char.ofNat (48 + n % 10) :: pushDigitsF fuel (n / 10)

/-- The contents of `buf` after the digit loop of `uart_putnum`, least
significant digit first, when the loop starts with the non-negative value
`n`. -/
def pushDigits (n : Nat) : List Char := pushDigitsF n n

/-- Embedding of `uart_putnum` (src/stm32_src/smartagri.c:58-74): the list of
bytes written to the UART for argument `num`.  `num == 0` transmits `'0'`
directly; a negative `num` transmits `'-'` and is then machine-negated
(`cNeg`); the digit loop runs only while the (possibly wrapped) value is
positive, which `Int.toNat` captures (`toNat` of a negative value is `0`,
matching a skipped loop); the buffered digits are transmitted in reverse
(most significant first). -/
def uart_putnum (num : Int) : List Char :=
  if num = 0 then ['0']
  else if num < 0 then '-' :: (pushDigits (cNeg num).toNat).reverse
  else (pushDigits num.toNat).reverse

/-- Final value of the buffer index `i` of `uart_putnum` after the digit
loop: the number of bytes written into the 12-byte local `buf`.  Writes go
to `buf[0] .. buf[putnumWrites num - 1]`. -/
def putnumWrites (num : Int) : Nat :=
  if num = 0 then 0
  else if num < 0 then (pushDigits (cNeg num).toNat).length
  else (pushDigits num.toNat).length

/-- Embedding of `uart_puts` (src/stm32_src/smartagri.c:54-56): transmits the
characters of the string in order. -/
def uart_puts (s : String) : List Char := s.toList

/-- Embedding of `send_json` (src/stm32_src/smartagri.c:121-133): the
concatenation of the bytes transmitted by its `uart_puts` / `uart_putnum`
calls, in program order. -/
def send_json (moisture temp ph rain water_level : Int) : List Char :=
  uart_puts "\x7b\"moisture\":" ++ uart_putnum moisture ++
  uart_puts ",\"temp\":" ++ uart_putnum temp ++
  uart_puts ",\"ph\":" ++ uart_putnum ph ++
  uart_puts ",\"rain\":" ++ uart_putnum rain ++
  uart_puts ",\"water_level\":" ++ uart_putnum water_level ++
  uart_puts "\x7d\r\n"

/-- Embedding of `int moisture = (moisture_raw * 100) / 4095;`
(src/stm32_src/smartagri.c:151): the `int` multiplication wraps at 32 bits
and the C division truncates toward zero (`Int.tdiv`). -/
def moistureOf (raw : Int) : Int := Int.tdiv (wrap32 (raw * 100)) 4095

/-- Embedding of `int rain = (GPIOA_IDR & (1 << 4)) ? 0 : 1;`
(src/stm32_src/smartagri.c:148), as a function of the GPIOA input data
register value. -/
def rainOf (idr : Nat) : Int := if idr &&& (1 <<< 4) ≠ 0 then 0 else 1

/-- Embedding of `GPIOA_ODR ^= (1 << 5);` (src/stm32_src/smartagri.c:159):
toggle of the status LED, as a function of the GPIOA output data
register value. -/
def toggleLed (odr : Nat) : Nat := odr ^^^ (1 <<< 5)

/-- The five fields passed to `send_json` in one loop iteration
(src/stm32_src/smartagri.c:146-156), as functions of that iteration's
sensor inputs: the two raw ADC readings and the GPIOA input data
register. `ph_raw` is read (src/stm32_src/smartagri.c:147) but unused. -/
structure Record where
  moisture : Int
  temp : Int
  ph : Int
  rain : Int
  water_level : Int
deriving DecidableEq, Repr

/-- The record computed by the loop body of `main`
(src/stm32_src/smartagri.c:146-154) from the iteration's sensor inputs. -/
def loopRecord (moisture_raw ph_raw : Int) (idr : Nat) : Record :=
  { moisture := moistureOf moisture_raw
    temp := 25
    ph := 7
    rain := rainOf idr
    water_level := 75 }

/-- UART bytes transmitted by one iteration of the `while(1)` loop of `main`
(src/stm32_src/smartagri.c:144-162): only the `send_json` call writes to the
UART; `read_adc`, the LED toggle and `delay_ms` transmit nothing. -/
def iterTrace (moisture_raw ph_raw : Int) (idr : Nat) : List Char :=
  send_json (loopRecord moisture_raw ph_raw idr).moisture
    (loopRecord moisture_raw ph_raw idr).temp
    (loopRecord moisture_raw ph_raw idr).ph
    (loopRecord moisture_raw ph_raw idr).rain
    (loopRecord moisture_raw ph_raw idr).water_level

/-- UART bytes transmitted by the first `k` iterations of the loop, where
`inputs` lists each iteration's sensor inputs
`(moisture_raw, ph_raw, idr)` in order. -/
def loopTrace : List (Int × Int × Nat) → List Char
  | [] => []
  | (mraw, praw, idr) :: rest => iterTrace mraw praw idr ++ loopTrace rest

/-- The startup banner string of `main` (src/stm32_src/smartagri.c:142). -/
def banner : List Char := uart_puts "STM32F072RB SmartAgri Started\r\n"

/-- UART bytes transmitted by `main` (src/stm32_src/smartagri.c:135-163)
through the first `inputs.length` loop iterations: the initialization
calls (`init_clocks`, `init_gpio`, `init_usart`, `init_adc`) write only
clock/pin/peripheral configuration registers, never the USART transmit
data register, and `delay_ms(1000)` transmits nothing, so the trace is the
banner followed by the loop's output. -/
def mainTrace (inputs : List (Int × Int × Nat)) : List Char :=
  uart_puts "STM32F072RB SmartAgri Started\r\n" ++ loopTrace inputs

/-- Decimal rendering of an integer as the spec describes it (spec §4.3
"Integer transmit"): the sign, then the base-10 digits most significant
first, with mathematical (non-wrapping) negation; `Nat.digits 10` is
Mathlib's base-10 representation, least significant first. -/
def specDecimal (n : Int) : List Char :=
  if n = 0 then ['0']
  else if n < 0 then
    '-' :: ((Nat.digits 10 (-n).toNat).map (fun d => Char.ofNat (48 + d))).reverse
  else ((Nat.digits 10 n.toNat).map (fun d => Char.ofNat (48 + d))).reverse

/-- The record text the spec prescribes (spec §6): the fixed template with
every field rendered in decimal, terminated by CR LF. -/
def specRecord (m t p r w : Int) : List Char :=
  "\x7b\"moisture\":".toList ++ specDecimal m ++
  ",\"temp\":".toList ++ specDecimal t ++
  ",\"ph\":".toList ++ specDecimal p ++
  ",\"rain\":".toList ++ specDecimal r ++
  ",\"water_level\":".toList ++ specDecimal w ++
  "\x7d\r\n".toList

/-! ### Helper lemmas -/

theorem wrap32_bounds (x : Int) : -(2 ^ 31) ≤ wrap32 x ∧ wrap32 x < 2 ^ 31 := by
  unfold wrap32
  have h1 : 0 ≤ (x + 2 ^ 31) % 2 ^ 32 := Int.emod_nonneg _ (by norm_num)
  have h2 : (x + 2 ^ 31) % 2 ^ 32 < 2 ^ 32 := Int.emod_lt_of_pos _ (by norm_num)
  omega

theorem wrap32_id {x : Int} (h1 : -(2 ^ 31) ≤ x) (h2 : x < 2 ^ 31) :
    wrap32 x = x := by
  unfold wrap32
  rw [Int.emod_eq_of_lt (by omega) (by omega)]
  omega

theorem cNeg_eq_neg {x : Int} (h1 : -(2 ^ 31) < x) (h2 : x ≤ 2 ^ 31) :
    cNeg x = -x := by
  unfold cNeg
  exact wrap32_id (by omega) (by omega)

theorem pushDigitsF_len_le :
    ∀ (fuel n k : Nat), n < 10 ^ k → (pushDigitsF fuel n).length ≤ k := by
  intro fuel
  induction fuel with
  | zero => intro n k _; simp [pushDigitsF]
  | succ fuel ih =>
    intro n k hn
    by_cases h0 : n = 0
    · simp [pushDigitsF, h0]
    · cases k with
      | zero =>
        exact absurd (Nat.lt_one_iff.mp (by simpa using hn)) h0
      | succ k =>
        simp only [pushDigitsF, h0, if_false, List.length_cons]
        have hdiv : n / 10 < 10 ^ k := by
          rw [Nat.div_lt_iff_lt_mul (by norm_num)]
          calc n < 10 ^ (k + 1) := hn
            _ = 10 ^ k * 10 := by ring
        exact Nat.succ_le_succ (ih (n / 10) k hdiv)

theorem pushDigits_len_le {n k : Nat} (h : n < 10 ^ k) :
    (pushDigits n).length ≤ k :=
  pushDigitsF_len_le n n k h

theorem pushDigitsF_eq_digits :
    ∀ (fuel n : Nat), n ≤ fuel →
      pushDigitsF fuel n = (Nat.digits 10 n).map (fun d => Char.ofNat (48 + d)) := by
  intro fuel
  induction fuel with
  | zero =>
    intro n hn
    have : n = 0 := Nat.le_zero.mp hn
    simp [pushDigitsF, this]
  | succ fuel ih =>
    intro n hn
    by_cases h0 : n = 0
    · simp [pushDigitsF, h0]
    · have hpos : 0 < n := Nat.pos_of_ne_zero h0
      rw [Nat.digits_def' (by norm_num : (1 : Nat) < 10) hpos]
      simp only [pushDigitsF, h0, if_false, List.map_cons]
      have hdiv : n / 10 ≤ fuel := by
        have : n / 10 < n := Nat.div_lt_self hpos (by norm_num)
        omega
      rw [ih (n / 10) hdiv]

theorem pushDigits_eq_digits (n : Nat) :
    pushDigits n = (Nat.digits 10 n).map (fun d => Char.ofNat (48 + d)) :=
  pushDigitsF_eq_digits n n (Nat.le_refl n)

theorem putnum_eq_specDecimal {n : Int} (h : -(2 ^ 31) < n) :
    uart_putnum n = specDecimal n := by
  unfold uart_putnum specDecimal
  by_cases h0 : n = 0
  · simp [h0]
  · by_cases hneg : n < 0
    · simp only [h0, if_false, hneg, if_true]
      rw [cNeg_eq_neg h (by omega), pushDigits_eq_digits]
    · simp only [h0, if_false, hneg, if_false]
      rw [pushDigits_eq_digits]

theorem tdiv_ofNat (a b : Nat) :
    Int.tdiv (Int.ofNat a) (Int.ofNat b) = Int.ofNat (a / b) := rfl

theorem moistureOf_eq {r : Int} (h0 : 0 ≤ r) (h1 : r ≤ 4095) :
    moistureOf r = Int.ofNat (r.toNat * 100 / 4095) := by
  unfold moistureOf
  have hw : wrap32 (r * 100) = r * 100 := wrap32_id (by nlinarith) (by nlinarith)
  rw [hw]
  have hr : r = Int.ofNat r.toNat := (Int.toNat_of_nonneg h0).symm
  rw [hr]
  have : (Int.ofNat r.toNat) * 100 = Int.ofNat (r.toNat * 100) := by
    simp [Int.ofNat_mul]
  rw [this]
  exact tdiv_ofNat _ _

theorem specDecimal_intmin :
    specDecimal (-(2 ^ 31) : Int) = '-' :: (pushDigits 2147483648).reverse := by
  have h0 : ¬((-(2 ^ 31) : Int) = 0) := by decide
  have h1 : (-(2 ^ 31) : Int) < 0 := by decide
  simp only [specDecimal, h0, if_false, h1, if_true]
  rw [← pushDigits_eq_digits]
  rfl

/-! ### Claim theorems -/

/-- C1: the claimed decimal round-trip fails at `INT_MIN`.  The code's own
intent (spec §4.3: negation of the minimum value "must be handled, since
naive negation overflows") is violated: `uart_putnum (-2^31)` transmits
only the single character `'-'` — the wrapped negation leaves `num`
negative, so the digit loop is skipped — which is not the decimal
rendering of `-2^31` and does not parse back to it. -/
theorem uart_putnum_intmin_transmits_minus_only :
    uart_putnum (-(2 ^ 31) : Int) = ['-'] ∧
    uart_putnum (-(2 ^ 31) : Int) ≠ specDecimal (-(2 ^ 31) : Int) := by
  constructor
  · decide
  · rw [specDecimal_intmin]
    decide

/-- C2 counterexample: the machine negation `num = -num` performed by
`uart_putnum` for negative arguments overflows at `INT_MIN`: it yields
`INT_MIN` again, not the mathematical negation `2^31`, contradicting the
claim that this negation "does not cause overflow". -/
theorem cNeg_intmin_wraps :
    cNeg (-(2 ^ 31) : Int) = -(2 ^ 31) ∧
    cNeg (-(2 ^ 31) : Int) ≠ -(-(2 ^ 31) : Int) := by decide

/-- C2 (amended): for every 32-bit `int` argument, the digit loop of
`uart_putnum` performs at most 10 writes into the 12-byte `buf` (indices
`0..9`, so the buffer index `i` never exceeds 10 ≤ 11 and never leaves the
buffer) — even at `INT_MIN`, where the wrapped negation stays negative and
the loop writes nothing.  The overflow-freedom part of the original claim
is refuted by `cNeg_intmin_wraps`. -/
theorem uart_putnum_buffer_writes_le (num : Int)
    (h1 : -(2 ^ 31) ≤ num) (h2 : num < 2 ^ 31) : putnumWrites num ≤ 10 := by
  unfold putnumWrites
  by_cases h0 : num = 0
  · simp [h0]
  · by_cases hneg : num < 0
    · simp only [h0, if_false, hneg, if_true]
      apply pushDigits_len_le
      have hb := (wrap32_bounds (-num)).2
      unfold cNeg
      omega
    · simp only [h0, if_false, hneg, if_false]
      apply pushDigits_len_le
      omega

theorem uart_putnum_buffer_writes_le_witness :
    putnumWrites (-(2 ^ 31) : Int) ≤ 10 :=
  uart_putnum_buffer_writes_le (-(2 ^ 31)) (by decide) (by decide)

/-- C3 counterexample: the moisture percentage at raw reading 2048 is 50,
not 49 as claimed — `2048 * 100 = 204800 = 4095 * 50 + 50`, so truncating
division yields 50. -/
theorem moisture_2048_ne_49 :
    moistureOf 2048 ≠ 49 ∧ moistureOf 2048 = 50 := by decide

/-- C3 (amended): on raw inputs in `[0, 4095]` the moisture percentage
`raw * 100 / 4095` is monotonically non-decreasing, its output lies in
`[0, 100]`, it maps 0 to 0, 4095 to 100 exactly, and 2048 to 50 (not 49:
see `moisture_2048_ne_49`). -/
theorem moisture_percent_props :
    (∀ a b : Int, 0 ≤ a → a ≤ b → b ≤ 4095 → moistureOf a ≤ moistureOf b) ∧
    (∀ r : Int, 0 ≤ r → r ≤ 4095 → 0 ≤ moistureOf r ∧ moistureOf r ≤ 100) ∧
    moistureOf 0 = 0 ∧ moistureOf 4095 = 100 ∧ moistureOf 2048 = 50 := by
  refine ⟨?_, ?_, by decide, by decide, by decide⟩
  · intro a b ha hab hb
    rw [moistureOf_eq ha (le_trans hab hb), moistureOf_eq (le_trans ha hab) hb]
    have hmono : a.toNat * 100 / 4095 ≤ b.toNat * 100 / 4095 :=
      Nat.div_le_div_right (Nat.mul_le_mul_right 100 (Int.toNat_le_toNat hab))
    exact Int.ofNat_le.mpr hmono
  · intro r h0 h1
    rw [moistureOf_eq h0 h1]
    refine ⟨Int.ofNat_nonneg _, ?_⟩
    have hr : r.toNat * 100 ≤ 409500 := by
      have : r.toNat ≤ 4095 := by omega
      omega
    have hd := Nat.div_le_div_right (c := 4095) hr
    norm_num at hd
    have h2 : Int.ofNat (r.toNat * 100 / 4095) ≤ Int.ofNat 100 := Int.ofNat_le.mpr hd
    simpa using h2

theorem moisture_percent_props_witness :
    moistureOf 1000 ≤ moistureOf 2048 ∧
    (0 ≤ moistureOf 2048 ∧ moistureOf 2048 ≤ 100) :=
  ⟨moisture_percent_props.1 1000 2048 (by decide) (by decide) (by decide),
    moisture_percent_props.2.1 2048 (by decide) (by decide)⟩

/-- C4 counterexample: with `moisture = INT_MIN` (and the other fields at
the claim's example values) the transmitted bytes are not the template
with every field rendered in decimal: the moisture field degenerates to a
bare `'-'`. -/
theorem send_json_intmin_not_decimal :
    send_json (-(2 ^ 31)) 25 7 0 75 ≠ specRecord (-(2 ^ 31)) 25 7 0 75 := by
  unfold specRecord
  rw [specDecimal_intmin,
    ← putnum_eq_specDecimal (show -(2 ^ 31) < (25 : Int) by decide),
    ← putnum_eq_specDecimal (show -(2 ^ 31) < (7 : Int) by decide),
    ← putnum_eq_specDecimal (show -(2 ^ 31) < (0 : Int) by decide),
    ← putnum_eq_specDecimal (show -(2 ^ 31) < (75 : Int) by decide)]
  decide

/-- C4 (amended): for every assignment of the five fields with each field
strictly greater than `INT_MIN`, `send_json` transmits exactly the
template `\x7b"moisture":M,"temp":T,"ph":P,"rain":R,"water_level":W\x7d`
with each field rendered in decimal, in that order with that punctuation,
terminated by CR LF; in particular the claim's example inputs
(50, 25, 7, 0, 75) produce the claimed literal byte sequence.  At a field
value of `INT_MIN` the decimal rendering is lost
(`send_json_intmin_not_decimal`). -/
theorem send_json_decimal_render :
    (∀ m t p r w : Int, -(2 ^ 31) < m → -(2 ^ 31) < t → -(2 ^ 31) < p →
      -(2 ^ 31) < r → -(2 ^ 31) < w →
      send_json m t p r w = specRecord m t p r w) ∧
    send_json 50 25 7 0 75 =
      "\x7b\"moisture\":50,\"temp\":25,\"ph\":7,\"rain\":0,\"water_level\":75\x7d\r\n".toList := by
  constructor
  · intro m t p r w hm ht hp hr hw
    unfold send_json specRecord uart_puts
    rw [putnum_eq_specDecimal hm, putnum_eq_specDecimal ht, putnum_eq_specDecimal hp,
      putnum_eq_specDecimal hr, putnum_eq_specDecimal hw]
  · decide

theorem send_json_decimal_render_witness :
    send_json 50 25 7 0 75 = specRecord 50 25 7 0 75 :=
  send_json_decimal_render.1 50 25 7 0 75
    (by decide) (by decide) (by decide) (by decide) (by decide)

/-- C5: the computed rain value is the logical negation of the raw pin
level: if bit 4 of the GPIOA input data register (the rain pin) is low the
rain field is 1, and if it is high the rain field is 0. -/
theorem rain_active_low (idr : Nat) :
    rainOf idr = if idr.testBit 4 then 0 else 1 := by
  unfold rainOf
  have h : idr &&& (1 <<< 4) = (idr.testBit 4).toNat * 2 ^ 4 := by
    rw [show (1 <<< 4 : Nat) = 2 ^ 4 from rfl]
    exact Nat.and_two_pow idr 4
  rw [h]
  cases hb : idr.testBit 4 <;> simp

/-- C6: after `k` loop iterations the status LED's logical state (bit 5 of
the GPIOA output data register) equals its initial state when `k` is even
and its complement when `k` is odd; the per-iteration toggle is an XOR of
the output bit. -/
theorem led_toggle_parity (k odr : Nat) :
    (toggleLed^[k] odr).testBit 5 =
      if k % 2 = 0 then odr.testBit 5 else !odr.testBit 5 := by
  induction k with
  | zero => simp
  | succ k ih =>
    rw [Function.iterate_succ_apply']
    rw [show toggleLed (toggleLed^[k] odr) = (toggleLed^[k] odr) ^^^ (1 <<< 5) from rfl]
    rw [Nat.testBit_xor, ih]
    have h32 : (1 <<< 5 : Nat).testBit 5 = true := by decide
    rw [h32]
    by_cases hk : k % 2 = 0
    · have hk1 : ¬((k + 1) % 2 = 0) := by omega
      simp [hk, hk1]
    · have hk1 : (k + 1) % 2 = 0 := by omega
      simp [hk, hk1]

/-- C7 counterexample: the rain field is computed from the rain-pin input,
so moisture is not the only sensor-derived field: the loop record differs
in its rain field between a low and a high rain pin. -/
theorem rain_depends_on_pin :
    (loopRecord 0 0 0).rain ≠ (loopRecord 0 0 16).rain := by decide

/-- C7 (amended): in every loop iteration, regardless of the analog
readings and the rain-pin state, the temperature, pH, and water-level
fields are the fixed constants 25, 7 and 75; moisture is the only field
computed from the analog readings (it depends only on the channel-0
reading), and rain — computed from the rain pin — is the only other
sensor-derived field (the channel-1 pH reading is discarded). -/
theorem loop_fields_sources (moisture_raw ph_raw : Int) (idr : Nat) :
    (loopRecord moisture_raw ph_raw idr).temp = 25 ∧
    (loopRecord moisture_raw ph_raw idr).ph = 7 ∧
    (loopRecord moisture_raw ph_raw idr).water_level = 75 ∧
    (loopRecord moisture_raw ph_raw idr).moisture = moistureOf moisture_raw ∧
    (loopRecord moisture_raw ph_raw idr).rain = rainOf idr ∧
    (∀ (ph_raw2 : Int) (idr2 : Nat),
      (loopRecord moisture_raw ph_raw2 idr2).moisture =
        (loopRecord moisture_raw ph_raw idr).moisture) :=
  ⟨rfl, rfl, rfl, rfl, rfl, fun _ _ => rfl⟩

/-- C8: for every sequence of loop-iteration inputs, the transmitted byte
stream is the fixed startup banner followed by the loop's records: the
banner is the very first thing transmitted (initialization writes no UART
data bytes), it is transmitted once, before the first iteration, and no
record of the structured protocol precedes it; with zero iterations the
stream is exactly the banner. -/
theorem banner_before_records (inputs : List (Int × Int × Nat)) :
    mainTrace inputs = banner ++ loopTrace inputs ∧
    mainTrace [] = banner ∧
    (mainTrace inputs).take banner.length = banner := by
  refine ⟨rfl, by simp [mainTrace, loopTrace, banner], ?_⟩
  show (banner ++ loopTrace inputs).take banner.length = banner
  simp

/-- C9: the per-iteration LED toggle `GPIOA_ODR ^= (1 << 5)` modifies only
bit 5 of the output data register: every other bit is unchanged. -/
theorem led_toggle_frame (odr i : Nat) (h : i ≠ 5) :
    (toggleLed odr).testBit i = odr.testBit i := by
  unfold toggleLed
  rw [Nat.testBit_xor]
  have h5 : (1 <<< 5 : Nat).testBit i = false := by
    rw [show (1 <<< 5 : Nat) = 2 ^ 5 from rfl]
    exact Nat.testBit_two_pow_of_ne (fun hh => h hh.symm)
  rw [h5]
  simp

theorem led_toggle_frame_witness :
    (toggleLed 37).testBit 0 = (37 : Nat).testBit 0 :=
  led_toggle_frame 37 0 (by decide)

/-- C10: for every raw reading in `[0, 4095]` the product `raw * 100` is
at most 409500, well below `2^31`, so the 32-bit multiplication does not
wrap and the moisture computation equals exact mathematical floor
division. -/
theorem moisture_mul_no_overflow (raw : Int)
    (h0 : 0 ≤ raw) (h1 : raw ≤ 4095) :
    raw * 100 ≤ 409500 ∧ raw * 100 < 2 ^ 31 ∧
    wrap32 (raw * 100) = raw * 100 ∧
    moistureOf raw = Int.ofNat (raw.toNat * 100 / 4095) :=
  ⟨by nlinarith, by nlinarith,
    wrap32_id (by nlinarith) (by nlinarith), moistureOf_eq h0 h1⟩

theorem moisture_mul_no_overflow_witness :
    (4095 : Int) * 100 ≤ 409500 ∧ (4095 : Int) * 100 < 2 ^ 31 ∧
    wrap32 (4095 * 100) = (4095 : Int) * 100 ∧
    moistureOf 4095 = Int.ofNat ((4095 : Int).toNat * 100 / 4095) :=
  moisture_mul_no_overflow 4095 (by decide) (by decide)

end SmartAgri
